import Mathlib

/-!
Verification of the SQL statement-composition engine of the
`loopback-connector` library: the `ParameterizedSQL` intermediate
representation (`lib/parameterized-sql.js`) and the filter-to-WHERE
compiler together with selected statement builders (`lib/sql.js`).

SQL text is modelled as `List Char` (a JavaScript string is a sequence of
characters); parameter values as the inductive `Val`, whose `vStmt`
constructor represents a nested `ParameterizedSQL` object used as a
parameter value.
-/

namespace LBConn

/-- A JavaScript value that can appear in a `params` array: `null`,
primitives, a RegExp, an array, or a nested `ParameterizedSQL`
(sql text plus parameters). -/
inductive Val where
  | vNull : Val
  | vStr : String → Val
  | vInt : Int → Val
  | vBool : Bool → Val
  | vRegex : String → Val
  | vArr : List Val → Val
  | vStmt : List Char → List Val → Val

/-- A `ParameterizedSQL` object: the `sql` template text and the `params`
array (`lib/parameterized-sql.js`). -/
structure Stmt where
  sql : List Char
  params : List Val

/-- `p instanceof ParameterizedSQL` for a parameter value. -/
def Val.isStmt : Val → Bool
  | .vStmt _ _ => true
  | _ => false

/-- The generic placeholder character `PLACEHOLDER = '?'`. -/
def qmark : Char := '?'

/-- Number of `?` placeholders in a sql text: `sql.split('?').length - 1`
equals the number of occurrences of `?`. -/
def countQ : List Char → Nat
  | [] => 0
  | c :: cs => (if c = qmark then 1 else 0) + countQ cs

/-- Index of the first occurrence of `?` in a character list, if any. -/
def findQIdx : List Char → Option Nat
  | [] => none
  | c :: cs => if c = qmark then some 0 else (findQIdx cs).map (· + 1)

/-- `sql.indexOf('?', start)`: first index `≥ start` holding `?`,
or `-1` when there is none. -/
def indexOfQFrom (s : List Char) (start : Nat) : Int :=
  match findQIdx (s.drop start) with
  | some i => ((start + i : Nat) : Int)
  | none => -1

/-- JavaScript `String.prototype.substring(a, b)`: clamps both indices to
the string length and swaps them when `a > b`. -/
def jsSubstring (s : List Char) (a b : Nat) : List Char :=
  let a2 := min a s.length
  let b2 := min b s.length
  (s.drop (min a2 b2)).take (max a2 b2 - min a2 b2)

/-- The loop of `ParameterizedSQL.prototype.collapse`: walks the `params`
array, locating for each parameter the next `?` of the template
(`sidx = this.sql.indexOf(PLACEHOLDER, sidx + 1)`).  A parameter that is a
nested statement and has a matching placeholder is collapsed recursively
and spliced in as `(` + sub.sql + `)`, its parameters replacing it in the
output parameter list; every other parameter is pushed unchanged. -/
def goCollapse (sql : List Char) : List Val → Int → Nat → List Char → List Val →
    List Char × List Val
  | [], _, sfrom, sqlOut, pOut => (sqlOut ++ sql.drop sfrom, pOut)
  | p :: rest, sidx, sfrom, sqlOut, pOut =>
    let sidx2 := indexOfQFrom sql (sidx + 1).toNat
    match p with
    | .vStmt psql pparams =>
      if sidx2 > -1 then
        let sub := goCollapse psql pparams (-1) 0 [] []
        goCollapse sql rest sidx2 (sidx2.toNat + 1)
          (sqlOut ++ jsSubstring sql sfrom sidx2.toNat ++ ('(' :: sub.1 ++ [')']))
          (pOut ++ sub.2)
      else
        goCollapse sql rest sidx2 sfrom sqlOut (pOut ++ [.vStmt psql pparams])
    | p => goCollapse sql rest sidx2 sfrom sqlOut (pOut ++ [p])
termination_by ps _ _ _ _ => sizeOf ps
decreasing_by
  all_goals simp_wf
  all_goals omega

/-- `ParameterizedSQL.prototype.collapse`. -/
def Stmt.collapse (s : Stmt) : Stmt :=
  let r := goCollapse s.sql s.params (-1) 0 [] []
  ⟨r.1, r.2⟩

/-- The `ParameterizedSQL` constructor on an explicit `(sql, params)` pair,
after its assertions pass (`typeof sql === 'string'`, `params` an array,
placeholder count equals `params.length`): it ends with `this.collapse()`. -/
def parameterizedSQL (sql : List Char) (params : List Val) : Stmt :=
  Stmt.collapse ⟨sql, params⟩

/-- `new ParameterizedSQL(str)` for a bare string (empty params array). -/
def strStmt (s : List Char) : Stmt := Stmt.collapse ⟨s, []⟩

/-- The empty statement `new ParameterizedSQL('', [])`. -/
def emptyStmt : Stmt := ⟨[], []⟩

/-- `ParameterizedSQL.append(currentStmt, stmt, separator)` on two
statement objects: the separator is appended whenever `currentStmt.sql` is
non-empty, then `stmt.sql` is appended when non-empty, and the parameter
arrays are concatenated. -/
def append (a b : Stmt) (sep : List Char) : Stmt :=
  let s1 := if a.sql.isEmpty then a.sql else a.sql ++ sep
  let s2 := if b.sql.isEmpty then s1 else s1 ++ b.sql
  ⟨s2, a.params ++ b.params⟩

/-- `ParameterizedSQL.join(sqls, separator)`: fold `append` over the list
starting from the empty statement, then collapse. -/
def joinStmts (stmts : List Stmt) (sep : List Char) : Stmt :=
  Stmt.collapse (stmts.foldl (fun acc s => append acc s sep) emptyStmt)

/-- `stmt.merge(other)` with the default `' '` separator. -/
def mergeS (a b : Stmt) : Stmt := append a b [' ']

mutual

/-- Well-formedness of a parameter value: every nested statement in it has
as many `?` placeholders as parameters (the `ParameterizedSQL` constructor
assertion, recursively). -/
def Val.wf : Val → Bool
  | .vStmt sql params => (countQ sql == params.length) && valsWf params
  | _ => true

/-- All values in a list are well-formed (see `Val.wf`). -/
def valsWf : List Val → Bool
  | [] => true
  | v :: vs => v.wf && valsWf vs

end

/-- No value in the list is itself a nested statement. -/
def flatParams (ps : List Val) : Bool := ps.all (fun p => !p.isStmt)

/-- A JavaScript value as it appears inside a caller-supplied filter
(`where`) object: `null`/`undefined`, primitives, a RegExp, an array, or a
plain object given as an ordered key/value list (JavaScript objects
iterate string keys in insertion order). -/
inductive JVal where
  | jNull : JVal
  | jStr : String → JVal
  | jInt : Int → JVal
  | jBool : Bool → JVal
  | jRegex : String → JVal
  | jArr : List JVal → JVal
  | jObj : List (String × JVal) → JVal

/-- Whether a filter value is an array. -/
def JVal.isArr : JVal → Bool
  | .jArr _ => true
  | _ => false

/-- Whether a filter value is handled by the plain-equality branch of
`_buildWhere` (neither `null` nor an operator object). -/
def JVal.isPlain : JVal → Bool
  | .jNull => false
  | .jObj _ => false
  | _ => true

/-- Whether a column value is `null`. -/
def Val.isNull : Val → Bool
  | .vNull => true
  | _ => false

/-- The model/dialect context consumed by `_buildWhere`:
`knownProp` is `props[key] != null` for
`props = self.getModelDefinition(model).properties`;
`colEsc` is `self.columnEscaped(model, key)`;
`toCol` is the dialect hook `this.toColumnValue(props[key], value)`
(abstract in the base `SQLConnector`). -/
structure Ctx where
  knownProp : String → Bool
  colEsc : String → List Char
  toCol : String → JVal → Val

/-- The coercion applied to each element inside `buildClause` and to the
initial `clause` of `buildExpression`: a value that is already a
`ParameterizedSQL` is used as-is, any other value becomes
`new ParameterizedSQL('?', [value])`. -/
def toColValueStmt : Val → Stmt
  | .vStmt s ps => ⟨s, ps⟩
  | v => Stmt.collapse ⟨[qmark], [v]⟩

/-- The inner helper `buildClause(columnValue, separator, grouping)` of
`SQLConnector.prototype.buildExpression`. -/
def buildClause (columnValue : List Val) (separator : List Char) (grouping : Bool) :
    Stmt :=
  let values := columnValue.map toColValueStmt
  let sep := if separator.isEmpty then [','] else separator
  let clause := joinStmts values sep
  if grouping then ⟨'(' :: clause.sql ++ [')'], clause.params⟩ else clause

/-- The `columnValue` argument of `buildExpression`: either a single value
or (for `inq`/`nin`/`between`) a list of values. -/
inductive ColValue where
  | single : Val → ColValue
  | list : List Val → ColValue

/-- `SQLConnector.prototype.buildExpression(columnName, operator,
columnValue, propertyValue)`: appends the operator's SQL to the escaped
column name and joins it with the value clause using an empty separator.
`operator` is `Object.keys(expression)[0]`, hence an `Option`. -/
def buildExpression (columnName : List Char) (operator : Option String)
    (columnValue : ColValue) : Stmt :=
  let clause0 : Stmt :=
    match columnValue with
    | .single v => toColValueStmt v
    | .list vs => Stmt.collapse ⟨[qmark], [.vArr vs]⟩
  let asList : List Val := match columnValue with
    | .list vs => vs
    | .single _ => []
  let fin := fun (sqlExp : List Char) (clause : Stmt) =>
    joinStmts [strStmt sqlExp, clause] []
  if operator = some "gt" then fin (columnName ++ ">".toList) clause0
  else if operator = some "gte" then fin (columnName ++ ">=".toList) clause0
  else if operator = some "lt" then fin (columnName ++ "<".toList) clause0
  else if operator = some "lte" then fin (columnName ++ "<=".toList) clause0
  else if operator = some "between" then
    fin (columnName ++ " BETWEEN ".toList) (buildClause asList " AND ".toList false)
  else if operator = some "inq" then
    fin (columnName ++ " IN ".toList) (buildClause asList ",".toList true)
  else if operator = some "nin" then
    fin (columnName ++ " NOT IN ".toList) (buildClause asList ",".toList true)
  else if operator = some "neq" then
    match columnValue with
    | .single .vNull => strStmt (columnName ++ " IS NOT NULL".toList)
    | _ => fin (columnName ++ "!=".toList) clause0
  else if operator = some "like" then fin (columnName ++ " LIKE ".toList) clause0
  else if operator = some "nlike" then
    fin (columnName ++ " NOT LIKE ".toList) clause0
  else if operator = some "regexp" then
    fin (columnName ++ " REGEXP ".toList) clause0
  else fin columnName clause0

/-- The body of `_buildWhere`'s loop for a key that is handled as a model
field (everything except an `and`/`or` key holding an array): `none` means
the loop pushes no statement for this key (`continue`), which happens for
an unknown property and for `nin` with an empty coerced value list. -/
def fieldStmt (ctx : Ctx) (key : String) (v : JVal) : Option Stmt :=
  if ctx.knownProp key then
    let columnName := ctx.colEsc key
    match v with
    | .jNull => some (mergeS emptyStmt (strStmt (columnName ++ " IS NULL".toList)))
    | .jObj pairs =>
      let operator : Option String := (pairs.head?).map Prod.fst
      let expr : JVal := ((pairs.head?).map Prod.snd).getD .jNull
      if operator = some "inq" ∨ operator = some "nin" ∨ operator = some "between" then
        let columnValue : List Val :=
          match expr with
          | .jArr es => es.map (ctx.toCol key)
          | e => [ctx.toCol key e]
        if operator = some "between" then
          let v1 := columnValue.getD 0 .vNull
          let v2 := columnValue.getD 1 .vNull
          some (mergeS emptyStmt (buildExpression columnName operator (.list [v1, v2])))
        else if columnValue.length = 0 then
          if operator = some "inq" then
            some (mergeS emptyStmt (buildExpression columnName operator (.list [.vNull])))
          else none
        else
          some (mergeS emptyStmt (buildExpression columnName operator (.list columnValue)))
      else
        let columnValue : Val :=
          if operator = some "regexp" then
            match expr with
            | .jRegex pat => .vRegex pat
            | e => ctx.toCol key e
          else ctx.toCol key expr
        some (mergeS emptyStmt (buildExpression columnName operator (.single columnValue)))
    | expr =>
      let columnValue := ctx.toCol key expr
      match columnValue with
      | .vNull => some (mergeS emptyStmt (strStmt (columnName ++ " IS NULL".toList)))
      | .vStmt s ps =>
        some (mergeS (mergeS emptyStmt (strStmt (columnName ++ "=".toList))) ⟨s, ps⟩)
      | cv => some (mergeS emptyStmt (Stmt.collapse ⟨columnName ++ "=?".toList, [cv]⟩))
  else none

/-- The epilogue of `_buildWhere`: the per-key statements' texts are joined
with `' AND '` and their parameter arrays concatenated, and the result goes
through `new ParameterizedSQL({sql: ..., params: ...})` (which collapses). -/
def finishWhere (stmts : List Stmt) : Stmt :=
  Stmt.collapse
    ⟨List.intercalate " AND ".toList (stmts.map Stmt.sql),
     (stmts.map Stmt.params).flatten⟩

mutual

/-- `SQLConnector.prototype._buildWhere(model, where)`: a missing,
non-object or array `where` yields the empty statement; an object is
compiled key by key and the fragments joined with `' AND '`. -/
def buildWhere (ctx : Ctx) : JVal → Stmt
  | .jObj fields => finishWhere (keyStmts ctx fields)
  | _ => emptyStmt

/-- The loop of `_buildWhere` over the filter's keys, producing the
`whereStmts` list.  An `and`/`or` key holding an array compiles each
clause recursively, keeps the non-empty ones wrapped in parentheses joined
by the uppercased key, and pushes the merged statement; every other key
goes through `fieldStmt`. -/
def keyStmts (ctx : Ctx) : List (String × JVal) → List Stmt
  | [] => []
  | (key, .jArr elts) :: rest =>
    if key = "and" ∨ key = "or" then
      let bp := branchFold ctx elts
      let sep := if key = "and" then " AND ".toList else " OR ".toList
      let stmt := mergeS emptyStmt (Stmt.collapse ⟨List.intercalate sep bp.1, bp.2⟩)
      stmt :: keyStmts ctx rest
    else
      (fieldStmt ctx key (.jArr elts)).toList ++ keyStmts ctx rest
  | (key, v) :: rest => (fieldStmt ctx key v).toList ++ keyStmts ctx rest

/-- The inner loop over the clauses of an `and`/`or` array: each clause is
compiled recursively; clauses with empty text are discarded, the others
contribute `'(' + sql + ')'` to `branches` and their parameters to
`branchParams`, in order. -/
def branchFold (ctx : Ctx) : List JVal → List (List Char) × List Val
  | [] => ([], [])
  | c :: cs =>
    let sub := buildWhere ctx c
    let rest := branchFold ctx cs
    if sub.sql.isEmpty then rest
    else (('(' :: sub.sql ++ [')']) :: rest.1, sub.params ++ rest.2)

end

/-- Property lookup `obj[k]` on a JavaScript object modelled as an ordered
key/value list; a missing key reads as `undefined` (`jNull`). -/
def jGet (obj : List (String × JVal)) (k : String) : JVal :=
  match obj.find? (fun kv => kv.1 == k) with
  | some kv => kv.2
  | none => .jNull

/-- JavaScript truthiness of a value. -/
def jTruthy : JVal → Bool
  | .jNull => false
  | .jStr s => !s.isEmpty
  | .jInt n => !(n == 0)
  | .jBool b => b
  | .jRegex _ => true
  | .jArr _ => true
  | .jObj _ => true

/-- Property assignment `obj[k] = v`: overwrites the existing key in place
or appends a new key at the end (JavaScript insertion order). -/
def jSet (obj : List (String × JVal)) (k : String) (v : JVal) :
    List (String × JVal) :=
  if obj.any (fun kv => kv.1 == k) then
    obj.map (fun kv => if kv.1 == k then (k, v) else kv)
  else obj ++ [(k, v)]

/-- `delete obj[k]`. -/
def jDelete (obj : List (String × JVal)) (k : String) : List (String × JVal) :=
  obj.filter (fun kv => !(kv.1 == k))

/-- The filter-mutating preamble of `SQLConnector.prototype.buildSelect`:
`if (!filter.order) { var idNames = this.idNames(model);
if (idNames && idNames.length) { filter.order = idNames; } }`.
Returns the state of the caller's filter object after `buildSelect` ran
this block (the rest of `buildSelect` only reads the filter). -/
def buildSelectOrderEffect (idNames : List String) (filter : List (String × JVal)) :
    List (String × JVal) :=
  if !(jTruthy (jGet filter "order")) then
    if !idNames.isEmpty then jSet filter "order" (.jArr (idNames.map .jStr))
    else filter
  else filter

/-- `SQLConnector.prototype._buildWhereObjById(model, id, data)`:
`delete data[idName]; var where = {}; where[idName] = id; return where;`.
Returns the produced `where` object together with the state of the
caller's `data` object after the call. -/
def buildWhereObjById (idName : String) (id : JVal) (data : List (String × JVal)) :
    List (String × JVal) × List (String × JVal) :=
  ([(idName, id)], jDelete data idName)

/-- One element of the array returned by `buildFieldsFromArray`: the part
consumed by `buildInsertAll` is its `columnValues` array of
`ParameterizedSQL` objects. -/
structure InsertFields where
  columnValues : List Stmt

/-- The connector surface used by `buildInsertAll`: the
`multiInsertSupported` capability flag (`false` on the base
`SQLConnector.prototype`) and the hook methods the body calls. -/
structure InsertConn where
  multiInsertSupported : Bool
  buildFieldsFromArray : String → List JVal → List InsertFields
  buildInsertInto : String → InsertFields → JVal → Stmt
  buildInsertDefaultValues : String → List JVal → JVal → Stmt
  buildInsertReturning : String → List JVal → JVal → Option Stmt
  parameterize : Stmt → Stmt

/-- The `for` loop of `buildInsertAll`, merging one `VALUES` group per row:
`values.sql = (isFirst ? 'VALUES ' : '') + '(' + values.sql + ')' +
(isLast ? '' : ',')`. `n` is `fieldsArray.length` and `i` the current
index. -/
def insertAllLoop (c : InsertConn) (model : String) (data : List JVal)
    (options : JVal) (n : Nat) : Nat → List InsertFields → Stmt → Stmt
  | _, [], acc => acc
  | i, f :: rest, acc =>
    let acc2 :=
      if f.columnValues.length ≠ 0 then
        let values := joinStmts f.columnValues [',']
        let vsql := (if i = 0 then "VALUES ".toList else []) ++
          '(' :: values.sql ++ [')'] ++ (if i = n - 1 then [] else [','])
        mergeS acc ⟨vsql, values.params⟩
      else mergeS acc (c.buildInsertDefaultValues model data options)
    insertAllLoop c model data options n (i + 1) rest acc2

/-- `SQLConnector.prototype.buildInsertAll(model, data, options)`: returns
the sentinel "no statement" (`null`, here `none`) when the connector does
not support multi-row INSERT or when no fields are found; otherwise builds
`INSERT INTO ...` with one `VALUES` group per row, merges the optional
RETURNING clause and applies the dialect placeholder rewriting. -/
def buildInsertAll (c : InsertConn) (model : String) (data : List JVal)
    (options : JVal) : Option Stmt :=
  if !c.multiInsertSupported then none
  else
    let fieldsArray := c.buildFieldsFromArray model data
    if fieldsArray.length = 0 then none
    else
      let insertStmt := c.buildInsertInto model (fieldsArray.headD ⟨[]⟩) options
      let stmt := insertAllLoop c model data options fieldsArray.length 0
        fieldsArray insertStmt
      let stmt2 := match c.buildInsertReturning model data options with
        | some r => mergeS stmt r
        | none => stmt
      some (c.parameterize stmt2)

/-- A concrete sample dialect/model context (columns escaped with square
brackets, literal value conversion) used to exercise the compiler. -/
def sampleCtx : Ctx where
  knownProp := fun k => k == "name" || k == "vip"
  colEsc := fun k => '[' :: k.toList ++ [']']
  toCol := fun _ v =>
    match v with
    | .jStr s => .vStr s
    | .jInt n => .vInt n
    | .jBool b => .vBool b
    | _ => .vNull

/-- A concrete sample connector whose dialect does not support multi-row
INSERT. -/
def sampleConn : InsertConn where
  multiInsertSupported := false
  buildFieldsFromArray := fun _ _ => []
  buildInsertInto := fun _ _ _ => emptyStmt
  buildInsertDefaultValues := fun _ _ _ => emptyStmt
  buildInsertReturning := fun _ _ _ => none
  parameterize := fun s => s

/-! ### Basic lemmas about placeholder counting and statement merging -/

theorem countQ_append (s t : List Char) : countQ (s ++ t) = countQ s + countQ t := by
  induction s with
  | nil => simp [countQ]
  | cons c cs ihc => simp [countQ, ihc]; omega

theorem append_emptyStmt_left (b : Stmt) (sep : List Char) :
    append emptyStmt b sep = b := by
  unfold append emptyStmt
  cases b with
  | mk bsql bparams =>
    cases bsql <;> simp

/-- When no parameter is a nested statement, the collapse loop copies the
parameters across and leaves the remaining text untouched. -/
theorem goCollapse_flat (sql : List Char) :
    ∀ (ps : List Val), flatParams ps = true →
    ∀ (sidx : Int) (sfrom : Nat) (sqlOut : List Char) (pOut : List Val),
    goCollapse sql ps sidx sfrom sqlOut pOut = (sqlOut ++ sql.drop sfrom, pOut ++ ps) := by
  intro ps
  induction ps with
  | nil => intro _ sidx sfrom sqlOut pOut; simp [goCollapse]
  | cons p rest ihr =>
    intro hflat sidx sfrom sqlOut pOut
    have hp : p.isStmt = false := by
      have := hflat
      simp [flatParams] at this
      simpa using this.1
    have hrest : flatParams rest = true := by
      simp [flatParams] at hflat ⊢
      intro x hx
      exact hflat.2 x hx
    cases p with
    | vStmt s q => simp [Val.isStmt] at hp
    | vNull => simp [goCollapse, ihr hrest]
    | vStr s => simp [goCollapse, ihr hrest]
    | vInt n => simp [goCollapse, ihr hrest]
    | vBool b => simp [goCollapse, ihr hrest]
    | vRegex r => simp [goCollapse, ihr hrest]
    | vArr a => simp [goCollapse, ihr hrest]

/-- Collapsing a statement none of whose parameters are nested statements
yields the identical statement. -/
theorem collapse_flat (s : Stmt) (h : flatParams s.params = true) :
    s.collapse = s := by
  cases s with
  | mk sql params =>
    simp [Stmt.collapse, goCollapse_flat sql params h]

/-! ### Locating placeholders -/

theorem findQIdx_eq_none (s : List Char) : findQIdx s = none ↔ countQ s = 0 := by
  induction s with
  | nil => simp [findQIdx, countQ]
  | cons c cs ihc =>
    by_cases hc : c = qmark
    · simp [findQIdx, countQ, hc]
    · simp [findQIdx, countQ, hc, ihc]

theorem findQIdx_spec (s : List Char) :
    ∀ (i : Nat), findQIdx s = some i →
    ∃ pre post, s = pre ++ qmark :: post ∧ pre.length = i ∧ countQ pre = 0 := by
  induction s with
  | nil => intro i h; simp [findQIdx] at h
  | cons c cs ihc =>
    intro i h
    by_cases hc : c = qmark
    · refine ⟨[], cs, ?_, ?_, ?_⟩
      · simp [hc]
      · simp [findQIdx, hc] at h
        simp [h]
      · simp [countQ]
    · simp [findQIdx, hc] at h
      obtain ⟨j, hj, hji⟩ := h
      obtain ⟨pre, post, hs, hlen, hcq⟩ := ihc j hj
      refine ⟨c :: pre, post, ?_, ?_, ?_⟩
      · simp [hs]
      · simp [hlen, hji]
      · simp [countQ, hc, hcq]

/-- Packaged facts about the next placeholder search in the collapse loop:
when the suffix from `st` still holds a placeholder, `indexOf` finds its
absolute position `j`, and the text decomposes around that position. -/
theorem indexOfQFrom_found (sql : List Char) (st : Nat)
    (h : 0 < countQ (sql.drop st)) :
    ∃ (j : Nat) (post : List Char),
      indexOfQFrom sql st = (j : Int) ∧
      st ≤ j ∧ j < sql.length ∧
      sql.drop j = qmark :: post ∧
      countQ ((sql.drop st).take (j - st)) = 0 ∧
      sql.drop (j + 1) = post := by
  rcases hfind : findQIdx (sql.drop st) with _ | i
  · rw [findQIdx_eq_none] at hfind
    omega
  · obtain ⟨pre, post, hs, hlen, hcq⟩ := findQIdx_spec (sql.drop st) i hfind
    have hstlen : st < sql.length := by
      by_contra hle
      have : sql.drop st = [] := by
        apply List.drop_eq_nil_of_le
        omega
      rw [this] at hs
      exact absurd hs (by simp)
    refine ⟨st + i, post, ?_, by omega, ?_, ?_, ?_, ?_⟩
    · simp [indexOfQFrom, hfind]
    · have hlendrop : (sql.drop st).length = sql.length - st := by simp
      have : (pre ++ qmark :: post).length = sql.length - st := by rw [← hs, hlendrop]
      simp at this
      omega
    · have h1 : sql.drop (st + i) = (sql.drop st).drop i := by
        rw [List.drop_drop]
      rw [h1, hs, ← hlen, List.drop_left]
    · have hidx : st + i - st = i := by omega
      rw [hidx, hs, ← hlen, List.take_left]
      exact hcq
    · have h2 : sql.drop (st + i + 1) = (sql.drop st).drop (i + 1) := by
        rw [List.drop_drop]
        try rw [Nat.add_assoc]
      rw [h2, hs]
      have h3 : pre ++ qmark :: post = (pre ++ [qmark]) ++ post := by simp
      rw [h3]
      have hl : (pre ++ [qmark]).length = i + 1 := by simp [hlen]
      rw [← hl, List.drop_left]

/-! ### The collapse loop under the constructor's parity assertion -/

theorem jsSubstring_eq (s : List Char) (a b : Nat) (hab : a ≤ b) (hb : b ≤ s.length) :
    jsSubstring s a b = (s.drop a).take (b - a) := by
  unfold jsSubstring
  dsimp only
  have h1 : min a s.length = a := Nat.min_eq_left (by omega)
  have h2 : min b s.length = b := Nat.min_eq_left hb
  rw [h1, h2]
  have h3 : min a b = a := Nat.min_eq_left hab
  have h4 : max a b = b := Nat.max_eq_right hab
  rw [h3, h4]

theorem flatParams_append (a b : List Val) :
    flatParams (a ++ b) = (flatParams a && flatParams b) := by
  simp [flatParams]

/-- Unfolding the collapse loop at a parameter that is not a nested
statement: the parameter is pushed and the search index advances. -/
theorem goCollapse_cons_push (sql : List Char) (p : Val) (rest : List Val)
    (sidx : Int) (sfrom : Nat) (sqlOut : List Char) (pOut : List Val)
    (h : p.isStmt = false) :
    goCollapse sql (p :: rest) sidx sfrom sqlOut pOut =
      goCollapse sql rest (indexOfQFrom sql (sidx + 1).toNat) sfrom sqlOut
        (pOut ++ [p]) := by
  cases p with
  | vStmt s q => simp [Val.isStmt] at h
  | vNull => simp [goCollapse]
  | vStr s => simp [goCollapse]
  | vInt i => simp [goCollapse]
  | vBool b => simp [goCollapse]
  | vRegex r => simp [goCollapse]
  | vArr a => simp [goCollapse]

/-- Unfolding the collapse loop at a nested-statement parameter whose
placeholder exists: the sub-statement is collapsed and spliced in. -/
theorem goCollapse_cons_stmt (sql psql : List Char) (pparams rest : List Val)
    (sidx : Int) (sfrom : Nat) (sqlOut : List Char) (pOut : List Val)
    (h : indexOfQFrom sql (sidx + 1).toNat > -1) :
    goCollapse sql (.vStmt psql pparams :: rest) sidx sfrom sqlOut pOut =
      goCollapse sql rest (indexOfQFrom sql (sidx + 1).toNat)
        ((indexOfQFrom sql (sidx + 1).toNat).toNat + 1)
        (sqlOut ++ jsSubstring sql sfrom (indexOfQFrom sql (sidx + 1).toNat).toNat ++
          ('(' :: (goCollapse psql pparams (-1) 0 [] []).1 ++ [')']))
        (pOut ++ (goCollapse psql pparams (-1) 0 [] []).2) := by
  simp [goCollapse, h]

/-- Loop invariant of `collapse` when every parameter (recursively) obeys
the constructor's placeholder/parameter parity: as many placeholders
remain in the unread text as parameters remain to process, the output
accumulators stay balanced, and every emitted parameter is flat. -/
theorem goCollapse_inv :
    ∀ (n : Nat) (ps : List Val), sizeOf ps ≤ n →
    ∀ (sql sqlOut : List Char) (sidx : Int) (sfrom : Nat) (pOut : List Val),
    -1 ≤ sidx →
    sfrom ≤ (sidx + 1).toNat →
    countQ (sql.drop (sidx + 1).toNat) = ps.length →
    valsWf ps = true →
    flatParams pOut = true →
    countQ sqlOut + countQ (sql.drop sfrom) = pOut.length + ps.length →
    countQ (goCollapse sql ps sidx sfrom sqlOut pOut).1 =
        (goCollapse sql ps sidx sfrom sqlOut pOut).2.length ∧
      flatParams (goCollapse sql ps sidx sfrom sqlOut pOut).2 = true := by
  intro n
  induction n with
  | zero =>
    intro ps hsz
    exact absurd hsz (by cases ps <;> simp)
  | succ n ih =>
    intro ps hsz sql sqlOut sidx sfrom pOut hsidx hsf hcnt hwf hflat hinv
    cases ps with
    | nil =>
      have hres : goCollapse sql [] sidx sfrom sqlOut pOut =
          (sqlOut ++ sql.drop sfrom, pOut) := by
        simp [goCollapse]
      rw [hres]
      dsimp only
      refine ⟨?_, hflat⟩
      rw [countQ_append]
      simp only [List.length_nil] at hinv
      omega
    | cons p rest =>
      have hpos : 0 < countQ (sql.drop (sidx + 1).toNat) := by
        rw [hcnt]
        simp only [List.length_cons]
        omega
      obtain ⟨j, post, hidxeq, hstj, hjlen, hdropj, hmid0, hdropj1⟩ :=
        indexOfQFrom_found sql (sidx + 1).toNat hpos
      have hwf1 : p.wf = true ∧ valsWf rest = true := by
        simp [valsWf] at hwf
        exact hwf
      -- count of the unread text, split at the placeholder position j
      have hdropsplit : ∀ f : Nat, f ≤ j →
          sql.drop f = (sql.drop f).take (j - f) ++ qmark :: post := by
        intro f hf
        conv_lhs => rw [← List.take_append_drop (j - f) (sql.drop f)]
        have : (sql.drop f).drop (j - f) = sql.drop j := by
          rw [List.drop_drop]
          congr 1
          omega
        rw [this, hdropj]
      have hqcons : countQ (qmark :: post) = 1 + countQ post := by
        simp [countQ]
      have hcntpost : countQ post = rest.length := by
        have h1 := hdropsplit (sidx + 1).toNat hstj
        rw [h1, countQ_append, hmid0, hqcons] at hcnt
        simp only [List.length_cons] at hcnt
        omega
      have hsfj : sfrom ≤ j := le_trans hsf hstj
      have hcntsfrom : countQ (sql.drop sfrom) =
          countQ ((sql.drop sfrom).take (j - sfrom)) + 1 + countQ post := by
        conv_lhs => rw [hdropsplit sfrom hsfj]
        rw [countQ_append, hqcons]
        omega
      have hjpos : indexOfQFrom sql (sidx + 1).toNat > -1 := by
        rw [hidxeq]
        omega
      have hszrest : sizeOf rest ≤ n := by
        have h1 : sizeOf (p :: rest) = 1 + sizeOf p + sizeOf rest := by simp
        have hps : 0 < sizeOf p := by cases p <;> simp
        omega
      cases hp : p.isStmt with
      | false =>
        rw [goCollapse_cons_push sql p rest sidx sfrom sqlOut pOut hp]
        rw [hidxeq]
        apply ih rest hszrest
        · omega
        · omega
        · have ht : ((j : Int) + 1).toNat = j + 1 := by omega
          rw [ht, hdropj1]
          exact hcntpost
        · exact hwf1.2
        · rw [flatParams_append]
          simp only [Bool.and_eq_true]
          refine ⟨hflat, ?_⟩
          simp [flatParams, hp]
        · rw [hcntsfrom] at hinv ⊢
          simp only [List.length_append, List.length_cons, List.length_nil] at hinv ⊢
          omega
      | true =>
        cases p with
        | vStmt psql pparams =>
          have hpar : countQ psql = pparams.length ∧ valsWf pparams = true := by
            have hw := hwf1.1
            simp [Val.wf] at hw
            exact hw
          have hszp : sizeOf pparams ≤ n := by
            have h1 : sizeOf (Val.vStmt psql pparams :: rest) =
                1 + (1 + sizeOf psql + sizeOf pparams) + sizeOf rest := by
              simp
            have h3 : 0 < sizeOf rest := by cases rest <;> simp
            omega
          have hsub := ih pparams hszp psql [] (-1) 0 []
            (by omega) (by simp) (by simp [hpar.1]) hpar.2 (by simp [flatParams])
            (by simp [countQ, hpar.1])
          rw [goCollapse_cons_stmt sql psql pparams rest sidx sfrom sqlOut pOut hjpos]
          rw [hidxeq]
          have hjnat : ((j : Int)).toNat = j := by omega
          rw [hjnat]
          apply ih rest hszrest
          · omega
          · omega
          · have ht : ((j : Int) + 1).toNat = j + 1 := by omega
            rw [ht, hdropj1]
            exact hcntpost
          · exact hwf1.2
          · rw [flatParams_append]
            simp only [Bool.and_eq_true]
            exact ⟨hflat, hsub.2⟩
          · have hmid : jsSubstring sql sfrom j = (sql.drop sfrom).take (j - sfrom) :=
              jsSubstring_eq sql sfrom j hsfj (by omega)
            rw [hmid, hdropj1]
            rw [countQ_append, countQ_append]
            have hparen : countQ ('(' :: (goCollapse psql pparams (-1) 0 [] []).1 ++ [')']) =
                countQ (goCollapse psql pparams (-1) 0 [] []).1 := by
              simp [countQ, countQ_append, qmark]
            rw [hparen, hsub.1, hcntpost]
            rw [hcntsfrom, hcntpost] at hinv
            simp only [List.length_append, List.length_cons, List.length_nil] at hinv ⊢
            omega
        | vNull => simp [Val.isStmt] at hp
        | vStr s => simp [Val.isStmt] at hp
        | vInt i => simp [Val.isStmt] at hp
        | vBool b => simp [Val.isStmt] at hp
        | vRegex r => simp [Val.isStmt] at hp
        | vArr a => simp [Val.isStmt] at hp

/-! ### Consequences for the constructor and collapse -/

theorem flatParams_singleton (v : Val) : flatParams [v] = !v.isStmt := by
  simp [flatParams]

theorem strStmt_eq (s : List Char) : strStmt s = ⟨s, []⟩ :=
  collapse_flat ⟨s, []⟩ rfl

theorem mergeS_emptyStmt (b : Stmt) : mergeS emptyStmt b = b :=
  append_emptyStmt_left b [' ']

/-- C1: a statement built by the constructor from a template whose
placeholder count equals its parameter count, with every nested statement
parameter recursively satisfying the same parity, collapses to a statement
whose placeholder count equals its parameter count and none of whose
parameters is itself a `ParameterizedSQL`. -/
theorem constructor_collapse_parity (sql : List Char) (params : List Val)
    (hpar : countQ sql = params.length) (hwf : valsWf params = true) :
    countQ (parameterizedSQL sql params).sql =
        (parameterizedSQL sql params).params.length ∧
      flatParams (parameterizedSQL sql params).params = true := by
  have h0 : ((-1 : Int) + 1).toNat = 0 := by decide
  have h := goCollapse_inv (sizeOf params) params (le_refl _) sql [] (-1) 0 []
    (by omega) (by omega) (by rw [h0]; simpa using hpar) hwf rfl
    (by simp [countQ, hpar])
  simpa [parameterizedSQL, Stmt.collapse] using h

/-- C1 witness: a concrete nested construction. -/
theorem constructor_collapse_parity_witness :
    countQ "a=? AND b=?".toList =
        [Val.vInt 1, Val.vStmt "x=?".toList [Val.vStr "y"]].length ∧
      valsWf [Val.vInt 1, Val.vStmt "x=?".toList [Val.vStr "y"]] = true ∧
      (countQ (parameterizedSQL "a=? AND b=?".toList
            [Val.vInt 1, Val.vStmt "x=?".toList [Val.vStr "y"]]).sql =
          (parameterizedSQL "a=? AND b=?".toList
            [Val.vInt 1, Val.vStmt "x=?".toList [Val.vStr "y"]]).params.length ∧
        flatParams (parameterizedSQL "a=? AND b=?".toList
          [Val.vInt 1, Val.vStmt "x=?".toList [Val.vStr "y"]]).params = true) :=
  ⟨by decide, by decide,
    constructor_collapse_parity "a=? AND b=?".toList
      [Val.vInt 1, Val.vStmt "x=?".toList [Val.vStr "y"]] (by decide) (by decide)⟩

/-- C2: collapsing a statement that is already collapsed (no parameter is
a `ParameterizedSQL`) yields the identical sql text and the identical
parameter sequence. -/
theorem collapse_idempotent_on_collapsed (s : Stmt)
    (h : flatParams s.params = true) :
    s.collapse.sql = s.sql ∧ s.collapse.params = s.params := by
  rw [collapse_flat s h]
  exact ⟨rfl, rfl⟩

/-- C2 witness: a concrete collapsed statement. -/
theorem collapse_idempotent_on_collapsed_witness :
    flatParams (Stmt.mk "a=? AND b=?".toList [Val.vInt 1, Val.vStr "y"]).params = true ∧
      ((Stmt.mk "a=? AND b=?".toList [Val.vInt 1, Val.vStr "y"]).collapse.sql =
          (Stmt.mk "a=? AND b=?".toList [Val.vInt 1, Val.vStr "y"]).sql ∧
        (Stmt.mk "a=? AND b=?".toList [Val.vInt 1, Val.vStr "y"]).collapse.params =
          (Stmt.mk "a=? AND b=?".toList [Val.vInt 1, Val.vStr "y"]).params) :=
  ⟨by decide,
    collapse_idempotent_on_collapsed
      (Stmt.mk "a=? AND b=?".toList [Val.vInt 1, Val.vStr "y"]) (by decide)⟩

/-! ### Computation lemmas for the WHERE compiler -/

theorem buildWhere_jObj (ctx : Ctx) (fields : List (String × JVal)) :
    buildWhere ctx (.jObj fields) = finishWhere (keyStmts ctx fields) := by
  simp [buildWhere]

theorem keyStmts_append (ctx : Ctx) (l1 l2 : List (String × JVal)) :
    keyStmts ctx (l1 ++ l2) = keyStmts ctx l1 ++ keyStmts ctx l2 := by
  induction l1 with
  | nil => simp [keyStmts]
  | cons kv t ih =>
    obtain ⟨k, v⟩ := kv
    cases v with
    | jArr elts =>
      by_cases hk : k = "and" ∨ k = "or"
      · simp [keyStmts, hk, ih]
      · simp [keyStmts, hk, ih]
    | jNull => simp [keyStmts, ih]
    | jStr s => simp [keyStmts, ih]
    | jInt n => simp [keyStmts, ih]
    | jBool b => simp [keyStmts, ih]
    | jRegex r => simp [keyStmts, ih]
    | jObj o => simp [keyStmts, ih]

theorem keyStmts_singleton_nonarr (ctx : Ctx) (k : String) (v : JVal)
    (hv : v.isArr = false) :
    keyStmts ctx [(k, v)] = (fieldStmt ctx k v).toList := by
  cases v with
  | jArr elts => simp [JVal.isArr] at hv
  | jNull => simp [keyStmts]
  | jStr s => simp [keyStmts]
  | jInt n => simp [keyStmts]
  | jBool b => simp [keyStmts]
  | jRegex r => simp [keyStmts]
  | jObj o => simp [keyStmts]

theorem finishWhere_nil : finishWhere [] = emptyStmt := by
  have h : finishWhere [] = Stmt.collapse ⟨[], []⟩ := by
    simp [finishWhere, List.intercalate]
  rw [h]
  exact collapse_flat ⟨[], []⟩ rfl

theorem finishWhere_singleton (s : Stmt) (h : flatParams s.params = true) :
    finishWhere [s] = s := by
  have h1 : finishWhere [s] = Stmt.collapse ⟨s.sql, s.params⟩ := by
    simp [finishWhere, List.intercalate]
  rw [h1, collapse_flat ⟨s.sql, s.params⟩ h]

theorem fieldStmt_null (ctx : Ctx) (key : String) (hk : ctx.knownProp key = true) :
    fieldStmt ctx key .jNull =
      some ⟨ctx.colEsc key ++ " IS NULL".toList, []⟩ := by
  simp [fieldStmt, hk, strStmt_eq, mergeS_emptyStmt]

theorem fieldStmt_plain (ctx : Ctx) (key : String) (v : JVal) (cv : Val)
    (hk : ctx.knownProp key = true) (hplain : v.isPlain = true)
    (hcv : ctx.toCol key v = cv) (hnn : cv.isNull = false)
    (hns : cv.isStmt = false) :
    fieldStmt ctx key v = some ⟨ctx.colEsc key ++ "=?".toList, [cv]⟩ := by
  have hflat1 : flatParams [cv] = true := by
    rw [flatParams_singleton, hns]
    rfl
  have hcol := collapse_flat ⟨ctx.colEsc key ++ ['=', '?'], [cv]⟩ hflat1
  cases v with
  | jNull => simp [JVal.isPlain] at hplain
  | jObj o => simp [JVal.isPlain] at hplain
  | jStr s =>
    cases cv with
    | vNull => simp [Val.isNull] at hnn
    | vStmt a b => simp [Val.isStmt] at hns
    | vStr t => simp [fieldStmt, hk, hcv, hcol, mergeS_emptyStmt]
    | vInt n => simp [fieldStmt, hk, hcv, hcol, mergeS_emptyStmt]
    | vBool b => simp [fieldStmt, hk, hcv, hcol, mergeS_emptyStmt]
    | vRegex r => simp [fieldStmt, hk, hcv, hcol, mergeS_emptyStmt]
    | vArr a => simp [fieldStmt, hk, hcv, hcol, mergeS_emptyStmt]
  | jInt m =>
    cases cv with
    | vNull => simp [Val.isNull] at hnn
    | vStmt a b => simp [Val.isStmt] at hns
    | vStr t => simp [fieldStmt, hk, hcv, hcol, mergeS_emptyStmt]
    | vInt n => simp [fieldStmt, hk, hcv, hcol, mergeS_emptyStmt]
    | vBool b => simp [fieldStmt, hk, hcv, hcol, mergeS_emptyStmt]
    | vRegex r => simp [fieldStmt, hk, hcv, hcol, mergeS_emptyStmt]
    | vArr a => simp [fieldStmt, hk, hcv, hcol, mergeS_emptyStmt]
  | jBool c =>
    cases cv with
    | vNull => simp [Val.isNull] at hnn
    | vStmt a b => simp [Val.isStmt] at hns
    | vStr t => simp [fieldStmt, hk, hcv, hcol, mergeS_emptyStmt]
    | vInt n => simp [fieldStmt, hk, hcv, hcol, mergeS_emptyStmt]
    | vBool b => simp [fieldStmt, hk, hcv, hcol, mergeS_emptyStmt]
    | vRegex r => simp [fieldStmt, hk, hcv, hcol, mergeS_emptyStmt]
    | vArr a => simp [fieldStmt, hk, hcv, hcol, mergeS_emptyStmt]
  | jRegex p =>
    cases cv with
    | vNull => simp [Val.isNull] at hnn
    | vStmt a b => simp [Val.isStmt] at hns
    | vStr t => simp [fieldStmt, hk, hcv, hcol, mergeS_emptyStmt]
    | vInt n => simp [fieldStmt, hk, hcv, hcol, mergeS_emptyStmt]
    | vBool b => simp [fieldStmt, hk, hcv, hcol, mergeS_emptyStmt]
    | vRegex r => simp [fieldStmt, hk, hcv, hcol, mergeS_emptyStmt]
    | vArr a => simp [fieldStmt, hk, hcv, hcol, mergeS_emptyStmt]
  | jArr es =>
    cases cv with
    | vNull => simp [Val.isNull] at hnn
    | vStmt a b => simp [Val.isStmt] at hns
    | vStr t => simp [fieldStmt, hk, hcv, hcol, mergeS_emptyStmt]
    | vInt n => simp [fieldStmt, hk, hcv, hcol, mergeS_emptyStmt]
    | vBool b => simp [fieldStmt, hk, hcv, hcol, mergeS_emptyStmt]
    | vRegex r => simp [fieldStmt, hk, hcv, hcol, mergeS_emptyStmt]
    | vArr a => simp [fieldStmt, hk, hcv, hcol, mergeS_emptyStmt]

theorem isEmpty_append_cons (l : List Char) (c : Char) (r : List Char) :
    (l ++ c :: r).isEmpty = false := by
  cases l <;> simp

theorem append_str_left (X : List Char) (hX : X.isEmpty = false) (b : Stmt) :
    append ⟨X, []⟩ b [] = ⟨X ++ b.sql, b.params⟩ := by
  unfold append
  by_cases hbe : b.sql.isEmpty
  · have hb : b.sql = [] := List.isEmpty_iff.mp hbe
    simp [hX, hbe, hb]
  · simp [hX, hbe]

theorem joinStmts_str_pair (X : List Char) (hX : X.isEmpty = false) (b : Stmt)
    (hb : flatParams b.params = true) :
    joinStmts [strStmt X, b] [] = ⟨X ++ b.sql, b.params⟩ := by
  unfold joinStmts
  simp only [List.foldl_cons, List.foldl_nil]
  rw [append_emptyStmt_left, strStmt_eq, append_str_left X hX b]
  exact collapse_flat _ hb

theorem toColValueStmt_vNull : toColValueStmt .vNull = ⟨[qmark], [.vNull]⟩ := by
  have h : toColValueStmt .vNull = Stmt.collapse ⟨[qmark], [.vNull]⟩ := rfl
  rw [h]
  exact collapse_flat _ rfl

theorem buildClause_inq_null :
    buildClause [.vNull] ",".toList true = ⟨['(', '?', ')'], [.vNull]⟩ := by
  unfold buildClause
  simp only [List.map_cons, List.map_nil, toColValueStmt_vNull]
  have hsep : (",".toList : List Char).isEmpty = false := by decide
  rw [hsep]
  simp only [Bool.false_eq_true, if_false, if_true]
  have hjoin : joinStmts [(⟨[qmark], [.vNull]⟩ : Stmt)] ",".toList =
      ⟨[qmark], [.vNull]⟩ := by
    unfold joinStmts
    simp only [List.foldl_cons, List.foldl_nil]
    rw [append_emptyStmt_left]
    exact collapse_flat _ rfl
  rw [hjoin]
  rfl

theorem buildExpression_inq_null (col : List Char) :
    buildExpression col (some "inq") (.list [.vNull]) =
      ⟨col ++ " IN (?)".toList, [.vNull]⟩ := by
  unfold buildExpression
  simp only []
  rw [buildClause_inq_null]
  have hX : (col ++ " IN ".toList).isEmpty = false := by
    simp only [String.toList]
    exact isEmpty_append_cons col ' ' ['I', 'N', ' ']
  rw [joinStmts_str_pair (col ++ " IN ".toList) hX ⟨['(', '?', ')'], [.vNull]⟩ rfl]
  simp

theorem buildExpression_neq_null (col : List Char) :
    buildExpression col (some "neq") (.single .vNull) =
      ⟨col ++ " IS NOT NULL".toList, []⟩ := by
  unfold buildExpression
  simp only []
  exact strStmt_eq _

theorem fieldStmt_inq_empty (ctx : Ctx) (key : String)
    (hk : ctx.knownProp key = true) :
    fieldStmt ctx key (.jObj [("inq", .jArr [])]) =
      some ⟨ctx.colEsc key ++ " IN (?)".toList, [.vNull]⟩ := by
  simp [fieldStmt, hk, buildExpression_inq_null, mergeS_emptyStmt]

theorem fieldStmt_nin_empty (ctx : Ctx) (key : String)
    (hk : ctx.knownProp key = true) :
    fieldStmt ctx key (.jObj [("nin", .jArr [])]) = none := by
  simp [fieldStmt, hk]

theorem fieldStmt_neq_null (ctx : Ctx) (key : String)
    (hk : ctx.knownProp key = true) (hnull : ctx.toCol key .jNull = .vNull) :
    fieldStmt ctx key (.jObj [("neq", .jNull)]) =
      some ⟨ctx.colEsc key ++ " IS NOT NULL".toList, []⟩ := by
  simp [fieldStmt, hk, hnull, buildExpression_neq_null, mergeS_emptyStmt]

theorem fieldStmt_unknown (ctx : Ctx) (k : String) (v : JVal)
    (hk : ctx.knownProp k = false) : fieldStmt ctx k v = none := by
  simp [fieldStmt, hk]

theorem flatParams_flatten_of (L : List (List Val))
    (h : ∀ l ∈ L, flatParams l = true) : flatParams L.flatten = true := by
  simp only [flatParams, List.all_eq_true] at h ⊢
  intro p hp
  rw [List.mem_flatten] at hp
  obtain ⟨l, hl, hpl⟩ := hp
  exact h l hl p hpl

/-- The `and`/`or` branch loop keeps exactly the clauses whose compiled
text is non-empty, parenthesizes their texts and concatenates their
parameters in order. -/
theorem branchFold_spec (ctx : Ctx) (cs : List JVal) :
    branchFold ctx cs =
      (((cs.map (buildWhere ctx)).filter (fun s => !s.sql.isEmpty)).map
          (fun s => '(' :: s.sql ++ [')']),
        (((cs.map (buildWhere ctx)).filter (fun s => !s.sql.isEmpty)).map
          Stmt.params).flatten) := by
  induction cs with
  | nil => simp [branchFold]
  | cons c t ih =>
    by_cases h : (buildWhere ctx c).sql.isEmpty
    · simp [branchFold, h, ih]
    · simp [branchFold, h, ih]

theorem keyStmts_and (ctx : Ctx) (elts : List JVal) :
    keyStmts ctx [("and", .jArr elts)] =
      [mergeS emptyStmt (Stmt.collapse
        ⟨List.intercalate " AND ".toList (branchFold ctx elts).1,
         (branchFold ctx elts).2⟩)] := by
  simp [keyStmts]

theorem buildWhere_null_field (ctx : Ctx) (key : String)
    (hk : ctx.knownProp key = true) :
    buildWhere ctx (.jObj [(key, .jNull)]) =
      ⟨ctx.colEsc key ++ " IS NULL".toList, []⟩ := by
  rw [buildWhere_jObj, keyStmts_singleton_nonarr ctx key .jNull rfl,
    fieldStmt_null ctx key hk]
  exact finishWhere_singleton _ rfl

theorem buildWhere_neq_null (ctx : Ctx) (key : String)
    (hk : ctx.knownProp key = true) (hnull : ctx.toCol key .jNull = .vNull) :
    buildWhere ctx (.jObj [(key, .jObj [("neq", .jNull)])]) =
      ⟨ctx.colEsc key ++ " IS NOT NULL".toList, []⟩ := by
  rw [buildWhere_jObj,
    keyStmts_singleton_nonarr ctx key (.jObj [("neq", .jNull)]) rfl,
    fieldStmt_neq_null ctx key hk hnull]
  exact finishWhere_singleton _ rfl

theorem buildWhere_inq_empty (ctx : Ctx) (key : String)
    (hk : ctx.knownProp key = true) :
    buildWhere ctx (.jObj [(key, .jObj [("inq", .jArr [])])]) =
      ⟨ctx.colEsc key ++ " IN (?)".toList, [.vNull]⟩ := by
  rw [buildWhere_jObj,
    keyStmts_singleton_nonarr ctx key (.jObj [("inq", .jArr [])]) rfl,
    fieldStmt_inq_empty ctx key hk]
  exact finishWhere_singleton _ rfl

theorem buildWhere_plain (ctx : Ctx) (key : String) (v : JVal) (cv : Val)
    (hk : ctx.knownProp key = true) (hplain : v.isPlain = true)
    (hvarr : v.isArr = false) (hcv : ctx.toCol key v = cv)
    (hnn : cv.isNull = false) (hns : cv.isStmt = false) :
    buildWhere ctx (.jObj [(key, v)]) =
      ⟨ctx.colEsc key ++ "=?".toList, [cv]⟩ := by
  rw [buildWhere_jObj, keyStmts_singleton_nonarr ctx key v hvarr,
    fieldStmt_plain ctx key v cv hk hplain hcv hnn hns]
  refine finishWhere_singleton _ ?_
  rw [flatParams_singleton, hns]
  rfl

/-- A key whose `fieldStmt` is skipped contributes nothing, wherever it
sits in the filter. -/
theorem buildWhere_skip_key (ctx : Ctx) (k : String) (v : JVal)
    (l1 l2 : List (String × JVal))
    (hnone : fieldStmt ctx k v = none)
    (harr : (k = "and" ∨ k = "or") → v.isArr = false) :
    buildWhere ctx (.jObj (l1 ++ (k, v) :: l2)) =
      buildWhere ctx (.jObj (l1 ++ l2)) := by
  rw [buildWhere_jObj, buildWhere_jObj, keyStmts_append, keyStmts_append]
  have h : keyStmts ctx ((k, v) :: l2) = keyStmts ctx l2 := by
    cases v with
    | jArr elts =>
      have hko : ¬(k = "and" ∨ k = "or") := by
        intro hc
        exact absurd (harr hc) (by simp [JVal.isArr])
      simp [keyStmts, hko, hnone]
    | jNull => simp [keyStmts, hnone]
    | jStr s => simp [keyStmts, hnone]
    | jInt n => simp [keyStmts, hnone]
    | jBool b => simp [keyStmts, hnone]
    | jRegex r => simp [keyStmts, hnone]
    | jObj o => simp [keyStmts, hnone]
  rw [h]

/-! ### Claims about the WHERE compiler -/

/-- C3: compiling `{and: clauses}` compiles each sub-filter, discards the
ones whose text is empty, wraps each surviving clause's text in
parentheses, joins them with the uppercased combinator `' AND '`, and
concatenates the surviving parameters in order; for two non-empty field
sub-filters this is `(<A>) AND (<B>)` with `params(A) ++ params(B)`. -/
theorem and_combinator (ctx : Ctx) (cs : List JVal)
    (hpar : ∀ c ∈ cs,
      countQ (buildWhere ctx c).sql = (buildWhere ctx c).params.length)
    (hflat : ∀ c ∈ cs, flatParams (buildWhere ctx c).params = true) :
    buildWhere ctx (.jObj [("and", .jArr cs)]) =
      ⟨List.intercalate " AND ".toList
          (((cs.map (buildWhere ctx)).filter (fun s => !s.sql.isEmpty)).map
            (fun s => '(' :: s.sql ++ [')'])),
        (((cs.map (buildWhere ctx)).filter (fun s => !s.sql.isEmpty)).map
          Stmt.params).flatten⟩ := by
  have hflat2 : flatParams (((cs.map (buildWhere ctx)).filter
      (fun s => !s.sql.isEmpty)).map Stmt.params).flatten = true := by
    apply flatParams_flatten_of
    intro l hl
    rw [List.mem_map] at hl
    obtain ⟨s, hs, rfl⟩ := hl
    rw [List.mem_filter] at hs
    obtain ⟨hs1, -⟩ := hs
    rw [List.mem_map] at hs1
    obtain ⟨c, hc, rfl⟩ := hs1
    exact hflat c hc
  rw [buildWhere_jObj, keyStmts_and, branchFold_spec]
  dsimp only
  rw [collapse_flat _ hflat2, mergeS_emptyStmt]
  exact finishWhere_singleton _ hflat2

/-- C3 witness: `{and: [{name: 'John'}, {vip: true}]}` on the sample
context. -/
theorem and_combinator_witness :
    (∀ c ∈ ([.jObj [("name", .jStr "John")], .jObj [("vip", .jBool true)]] :
        List JVal),
      countQ (buildWhere sampleCtx c).sql =
        (buildWhere sampleCtx c).params.length) ∧
    (∀ c ∈ ([.jObj [("name", .jStr "John")], .jObj [("vip", .jBool true)]] :
        List JVal),
      flatParams (buildWhere sampleCtx c).params = true) ∧
    buildWhere sampleCtx (.jObj [("and", .jArr
        [.jObj [("name", .jStr "John")], .jObj [("vip", .jBool true)]])]) =
      ⟨List.intercalate " AND ".toList
          ((([.jObj [("name", .jStr "John")], .jObj [("vip", .jBool true)]].map
              (buildWhere sampleCtx)).filter (fun s => !s.sql.isEmpty)).map
            (fun s => '(' :: s.sql ++ [')'])),
        ((([.jObj [("name", .jStr "John")], .jObj [("vip", .jBool true)]].map
            (buildWhere sampleCtx)).filter (fun s => !s.sql.isEmpty)).map
          Stmt.params).flatten⟩ := by
  have hA : buildWhere sampleCtx (.jObj [("name", .jStr "John")]) =
      ⟨sampleCtx.colEsc "name" ++ "=?".toList, [.vStr "John"]⟩ :=
    buildWhere_plain sampleCtx "name" (.jStr "John") (.vStr "John")
      (by decide) rfl rfl rfl rfl rfl
  have hB : buildWhere sampleCtx (.jObj [("vip", .jBool true)]) =
      ⟨sampleCtx.colEsc "vip" ++ "=?".toList, [.vBool true]⟩ :=
    buildWhere_plain sampleCtx "vip" (.jBool true) (.vBool true)
      (by decide) rfl rfl rfl rfl rfl
  have h1 : ∀ c ∈ ([.jObj [("name", .jStr "John")],
      .jObj [("vip", .jBool true)]] : List JVal),
      countQ (buildWhere sampleCtx c).sql =
        (buildWhere sampleCtx c).params.length := by
    intro c hc
    simp only [List.mem_cons, List.not_mem_nil, or_false] at hc
    rcases hc with rfl | rfl
    · rw [hA]
      decide
    · rw [hB]
      decide
  have h2 : ∀ c ∈ ([.jObj [("name", .jStr "John")],
      .jObj [("vip", .jBool true)]] : List JVal),
      flatParams (buildWhere sampleCtx c).params = true := by
    intro c hc
    simp only [List.mem_cons, List.not_mem_nil, or_false] at hc
    rcases hc with rfl | rfl
    · rw [hA]
      decide
    · rw [hB]
      decide
  exact ⟨h1, h2, and_combinator sampleCtx _ h1 h2⟩

/-- C4: `{f: {inq: []}}` compiles to `<escapedColumn> IN (?)` with the
single bound parameter `null`, while `{f: {nin: []}}` contributes no
fragment at all to the joined WHERE body, wherever it appears. -/
theorem inq_empty_and_nin_empty (ctx : Ctx) (f : String)
    (hk : ctx.knownProp f = true) (hq : countQ (ctx.colEsc f) = 0) :
    buildWhere ctx (.jObj [(f, .jObj [("inq", .jArr [])])]) =
        ⟨ctx.colEsc f ++ " IN (?)".toList, [.vNull]⟩ ∧
      ∀ l1 l2 : List (String × JVal),
        buildWhere ctx (.jObj (l1 ++ (f, .jObj [("nin", .jArr [])]) :: l2)) =
          buildWhere ctx (.jObj (l1 ++ l2)) := by
  refine ⟨buildWhere_inq_empty ctx f hk, ?_⟩
  intro l1 l2
  exact buildWhere_skip_key ctx f _ l1 l2 (fieldStmt_nin_empty ctx f hk)
    (fun _ => rfl)

/-- C4 witness: the property `name` on the sample context. -/
theorem inq_empty_and_nin_empty_witness :
    sampleCtx.knownProp "name" = true ∧
      countQ (sampleCtx.colEsc "name") = 0 ∧
      (buildWhere sampleCtx (.jObj [("name", .jObj [("inq", .jArr [])])]) =
          ⟨sampleCtx.colEsc "name" ++ " IN (?)".toList, [.vNull]⟩ ∧
        ∀ l1 l2 : List (String × JVal),
          buildWhere sampleCtx
              (.jObj (l1 ++ ("name", .jObj [("nin", .jArr [])]) :: l2)) =
            buildWhere sampleCtx (.jObj (l1 ++ l2))) :=
  ⟨by decide, by decide,
    inq_empty_and_nin_empty sampleCtx "name" (by decide) (by decide)⟩

/-- C5: `{f: null}` compiles to `<escapedColumn> IS NULL` with no
parameters, and `{f: {neq: null}}` to `<escapedColumn> IS NOT NULL` with
no parameters, when the value-conversion hook maps `null` to `null`. -/
theorem null_field_and_neq_null (ctx : Ctx) (f : String)
    (hk : ctx.knownProp f = true) (hq : countQ (ctx.colEsc f) = 0)
    (hnull : ctx.toCol f .jNull = .vNull) :
    buildWhere ctx (.jObj [(f, .jNull)]) =
        ⟨ctx.colEsc f ++ " IS NULL".toList, []⟩ ∧
      buildWhere ctx (.jObj [(f, .jObj [("neq", .jNull)])]) =
        ⟨ctx.colEsc f ++ " IS NOT NULL".toList, []⟩ :=
  ⟨buildWhere_null_field ctx f hk, buildWhere_neq_null ctx f hk hnull⟩

/-- C5 witness: the property `name` on the sample context. -/
theorem null_field_and_neq_null_witness :
    sampleCtx.knownProp "name" = true ∧
      countQ (sampleCtx.colEsc "name") = 0 ∧
      sampleCtx.toCol "name" .jNull = .vNull ∧
      (buildWhere sampleCtx (.jObj [("name", .jNull)]) =
          ⟨sampleCtx.colEsc "name" ++ " IS NULL".toList, []⟩ ∧
        buildWhere sampleCtx (.jObj [("name", .jObj [("neq", .jNull)])]) =
          ⟨sampleCtx.colEsc "name" ++ " IS NOT NULL".toList, []⟩) :=
  ⟨by decide, by decide, rfl,
    null_field_and_neq_null sampleCtx "name" (by decide) (by decide) rfl⟩

/-- C8: a filter key that is not a declared property (and is not an
`and`/`or` key holding an array) contributes no fragment and raises no
error; the remaining keys compile exactly as if it were absent. -/
theorem unknown_key_skipped (ctx : Ctx) (k : String) (v : JVal)
    (l1 l2 : List (String × JVal)) (hk : ctx.knownProp k = false)
    (harr : (k = "and" ∨ k = "or") → v.isArr = false) :
    buildWhere ctx (.jObj (l1 ++ (k, v) :: l2)) =
      buildWhere ctx (.jObj (l1 ++ l2)) :=
  buildWhere_skip_key ctx k v l1 l2 (fieldStmt_unknown ctx k v hk) harr

/-- C8 witness: the unknown key `age` amid a known one. -/
theorem unknown_key_skipped_witness :
    sampleCtx.knownProp "age" = false ∧
      buildWhere sampleCtx
          (.jObj ([] ++ ("age", .jInt 30) :: [("name", .jStr "John")])) =
        buildWhere sampleCtx (.jObj ([] ++ [("name", .jStr "John")])) :=
  ⟨by decide,
    unknown_key_skipped sampleCtx "age" (.jInt 30) [] [("name", .jStr "John")]
      (by decide) (fun h => absurd h (by decide))⟩

/-- C10: when the value of a declared property is a plain object, only its
first key (in iteration order) is read as the operator with its operand;
all remaining keys of the operator object are ignored. -/
theorem operator_object_first_key_only (ctx : Ctx) (f op : String) (ev : JVal)
    (rest : List (String × JVal)) :
    buildWhere ctx (.jObj [(f, .jObj ((op, ev) :: rest))]) =
      buildWhere ctx (.jObj [(f, .jObj [(op, ev)])]) := by
  rw [buildWhere_jObj, buildWhere_jObj,
    keyStmts_singleton_nonarr ctx f (.jObj ((op, ev) :: rest)) rfl,
    keyStmts_singleton_nonarr ctx f (.jObj [(op, ev)]) rfl]
  have h : fieldStmt ctx f (.jObj ((op, ev) :: rest)) =
      fieldStmt ctx f (.jObj [(op, ev)]) := by
    simp [fieldStmt]
  rw [h]

/-! ### Claims about append, the frame conditions and buildInsertAll -/

/-- C6 counterexample: appending an empty-text statement to a non-empty
one does NOT leave the text unchanged — the separator is still appended,
because `append` adds the separator whenever the first statement's text is
non-empty, regardless of the second. -/
theorem append_trailing_separator_cex :
    (append ⟨['X'], []⟩ ⟨[], []⟩ [',']).sql = ['X', ','] ∧
      (['X', ','] : List Char) ≠ ['X'] := by
  exact ⟨rfl, by decide⟩

/-- C6 (amended): `append` produces the first statement's text followed by
the separator whenever that text is non-empty — even when the second
statement's text is empty, leaving a trailing separator — followed by the
second statement's text when non-empty; the separator is omitted only when
the first side's text is empty; the parameters are always the
concatenation. -/
theorem append_characterization (a b : Stmt) (sep : List Char) :
    (append a b sep).sql =
        (if a.sql.isEmpty then ([] : List Char) else a.sql ++ sep) ++
          (if b.sql.isEmpty then ([] : List Char) else b.sql) ∧
      (append a b sep).params = a.params ++ b.params := by
  unfold append
  by_cases ha : a.sql.isEmpty
  · have h0 : a.sql = [] := List.isEmpty_iff.mp ha
    by_cases hb : b.sql.isEmpty <;> simp [ha, hb, h0]
  · by_cases hb : b.sql.isEmpty
    · have h0 : b.sql = [] := List.isEmpty_iff.mp hb
      simp [ha, hb, h0]
    · simp [ha, hb]

/-- C7 counterexample: `buildSelect` mutates a filter without an `order`
key (it gains `order = idNames`), and the update/replace-by-id path
mutates the data object (the id property is deleted). -/
theorem statement_builders_mutate_inputs_cex :
    buildSelectOrderEffect ["id"] [] ≠ ([] : List (String × JVal)) ∧
      (buildWhereObjById "id" (.jInt 1)
          [("id", .jInt 1), ("x", .jInt 2)]).2 ≠
        [("id", .jInt 1), ("x", .jInt 2)] := by
  constructor
  · intro h
    have h1 : buildSelectOrderEffect ["id"] [] =
        [("order", .jArr [.jStr "id"])] := rfl
    rw [h1] at h
    have := congrArg List.length h
    simp at this
  · intro h
    have h1 : (buildWhereObjById "id" (.jInt 1)
        [("id", .jInt 1), ("x", .jInt 2)]).2 = [("x", .jInt 2)] := rfl
    rw [h1] at h
    have := congrArg List.length h
    simp at this

/-- C7 (amended): the builders' only input mutations are these two:
`buildSelect` leaves the filter unchanged whenever `filter.order` is
already set (truthy) — otherwise it writes `filter.order` — and
`_buildWhereObjById` removes exactly the id property from `data`, so data
without the id property is unchanged; the returned where object is
`{idName: id}`. -/
theorem frame_conditions_amended (idName : String) (id : JVal)
    (data filter : List (String × JVal)) (idNames : List String)
    (horder : jTruthy (jGet filter "order") = true)
    (hid : data.all (fun kv => !(kv.1 == idName)) = true) :
    buildSelectOrderEffect idNames filter = filter ∧
      (buildWhereObjById idName id data).2 = data ∧
      (buildWhereObjById idName id data).1 = [(idName, id)] := by
  refine ⟨?_, ?_, rfl⟩
  · simp [buildSelectOrderEffect, horder]
  · show jDelete data idName = data
    unfold jDelete
    rw [List.filter_eq_self]
    intro kv hkv
    rw [List.all_eq_true] at hid
    exact hid kv hkv

/-- C7 witness: a filter with an order and a data object without the id. -/
theorem frame_conditions_amended_witness :
    jTruthy (jGet [(("order" : String), JVal.jStr "x")] "order") = true ∧
      ([(("x" : String), JVal.jInt 2)].all (fun kv => !(kv.1 == "id"))) = true ∧
      (buildSelectOrderEffect ["id"] [("order", .jStr "x")] =
          [("order", .jStr "x")] ∧
        (buildWhereObjById "id" (.jInt 1) [("x", .jInt 2)]).2 =
            [("x", .jInt 2)] ∧
          (buildWhereObjById "id" (.jInt 1) [("x", .jInt 2)]).1 =
            [("id", .jInt 1)]) :=
  ⟨by decide, by decide,
    frame_conditions_amended "id" (.jInt 1) [("x", .jInt 2)]
      [("order", .jStr "x")] ["id"] (by decide) (by decide)⟩

/-- C9: when the connector's `multiInsertSupported` capability flag is
false, `buildInsertAll` returns the sentinel "no statement" (`null`)
without building any INSERT statement. -/
theorem build_insert_all_unsupported (c : InsertConn) (model : String)
    (data : List JVal) (options : JVal)
    (h : c.multiInsertSupported = false) :
    buildInsertAll c model data options = none := by
  simp [buildInsertAll, h]

/-- C9 witness: the sample connector. -/
theorem build_insert_all_unsupported_witness :
    sampleConn.multiInsertSupported = false ∧
      buildInsertAll sampleConn "customer" [] .jNull = none :=
  ⟨rfl, build_insert_all_unsupported sampleConn "customer" [] .jNull rfl⟩

end LBConn
